import Mathlib

/-!
A shallow embedding of `tf_retinanet/layers/filter_detections.py`.

Tensors are modelled as Lean lists over exact rationals: `boxes` is a list of
`Box` values, `classification` is a list of rows (one row of class scores per
box), and each auxiliary array in `other` is a list of flat per-box payloads.
The number of classes `C` is passed explicitly, mirroring the static shape
`classification.shape[1]` that the source reads from the tensor metadata.

The TensorFlow operations the source calls are embedded by their documented
(and kernel) semantics:
  * `tf.where(tf.keras.backend.greater(scores, t))` keeps the indices whose
    score is strictly greater than `t` (`filterIndices`);
  * `tf.image.non_max_suppression` greedily walks boxes in descending score
    order (ties resolved by lowest index), keeps a box iff its IoU with every
    previously selected box is at most the threshold, and stops after
    `max_output_size` selections (`non_max_suppression`); its IoU treats a
    box of non-positive area as having IoU 0 with everything (`iou`);
  * `tf.nn.top_k` returns the `k` largest values in descending order, the
    lower index coming first among equal values (`sortedIndices`, `take`);
  * `tf.pad` with `constant_values=-1` appends sentinel rows (`List.replicate`).
-/

namespace TfRetinanet

/- Batteries marks the rational-number operations `@[irreducible]`, which
blocks kernel evaluation of concrete instances of the definitions below; make
them semireducible in this file so that `decide` can evaluate the embedding on
concrete inputs. -/
attribute [local semireducible] Rat.add Rat.sub Rat.mul Rat.inv

/-- A bounding box in `(x1, y1, x2, y2)` format, as in the source docstring. -/
structure Box where
  x1 : ℚ
  y1 : ℚ
  x2 : ℚ
  y2 : ℚ
deriving DecidableEq, Repr

instance : Inhabited Box := ⟨⟨0, 0, 0, 0⟩⟩

/-- Box area after normalising the corner pair, exactly as the TF
`non_max_suppression` kernel computes it (`min`/`max` of each coordinate pair). -/
def boxArea (a : Box) : ℚ :=
  (max a.x1 a.x2 - min a.x1 a.x2) * (max a.y1 a.y2 - min a.y1 a.y2)

/-- Intersection area of two (corner-normalised) boxes, clamped at 0. -/
def interArea (a b : Box) : ℚ :=
  max 0 (min (max a.x1 a.x2) (max b.x1 b.x2) - max (min a.x1 a.x2) (min b.x1 b.x2)) *
  max 0 (min (max a.y1 a.y2) (max b.y1 b.y2) - max (min a.y1 a.y2) (min b.y1 b.y2))

/-- Intersection over union as computed by the TF `non_max_suppression` kernel:
0 whenever either box has non-positive area. -/
def iou (a b : Box) : ℚ :=
  if boxArea a ≤ 0 ∨ boxArea b ≤ 0 then 0
  else interArea a b / (boxArea a + boxArea b - interArea a b)

/-- The keyword arguments of `filter_detections`, with the source's defaults. -/
structure FilterConfig where
  class_specific_filter : Bool := true
  nms : Bool := true
  score_threshold : ℚ := 1/20
  max_detections : ℕ := 300
  nms_threshold : ℚ := 1/2
deriving Repr

/-- The sort order used by `tf.nn.top_k` on score positions: a higher score
comes first, and among equal scores the lower index comes first. -/
def scoreRel (s : List ℚ) (i j : ℕ) : Prop :=
  s.getD j 0 < s.getD i 0 ∨ (s.getD i 0 = s.getD j 0 ∧ i ≤ j)

instance scoreRelDecidable (s : List ℚ) : DecidableRel (scoreRel s) := fun i j =>
  inferInstanceAs (Decidable (s.getD j 0 < s.getD i 0 ∨
    (s.getD i 0 = s.getD j 0 ∧ i ≤ j)))

instance scoreRelTotal (s : List ℚ) : IsTotal ℕ (scoreRel s) := by
  constructor
  intro i j
  rcases lt_trichotomy (s.getD i 0) (s.getD j 0) with h | h | h
  · exact Or.inr (Or.inl h)
  · rcases Nat.le_total i j with hij | hij
    · exact Or.inl (Or.inr ⟨h, hij⟩)
    · exact Or.inr (Or.inr ⟨h.symm, hij⟩)
  · exact Or.inl (Or.inl h)

instance scoreRelTrans (s : List ℚ) : IsTrans ℕ (scoreRel s) := by
  constructor
  intro a b c hab hbc
  rcases hab with h1 | ⟨e1, l1⟩ <;> rcases hbc with h2 | ⟨e2, l2⟩
  · exact Or.inl (h2.trans h1)
  · exact Or.inl (e2 ▸ h1)
  · exact Or.inl (e1 ▸ h2)
  · exact Or.inr ⟨e1.trans e2, l1.trans l2⟩

/-- Positions `0, …, s.length - 1` sorted by descending score, lower index
first among ties; this is the ranking `tf.nn.top_k` uses. -/
def sortedIndices (s : List ℚ) : List ℕ :=
  List.insertionSort (scoreRel s) (List.range s.length)

/-- `tf.where(tf.keras.backend.greater(scores, t))`: indices whose score is
strictly greater than the threshold, in increasing index order. -/
def filterIndices (s : List ℚ) (t : ℚ) : List ℕ :=
  (List.range s.length).filter (fun i => decide (t < s.getD i 0))

/-- The greedy selection loop of `tf.image.non_max_suppression`: walk the
candidate positions in score order, keep a position iff its box's IoU with
every previously selected box is at most the threshold, and stop once
`maxOut` boxes have been selected. `sel` accumulates the selected boxes. -/
def nmsSelect (boxes : List Box) (thr : ℚ) (maxOut : ℕ) :
    List ℕ → List Box → List ℕ
  | [], _ => []
  | i :: rest, sel =>
    if maxOut ≤ sel.length then []
    else if sel.all (fun b => decide (iou b (boxes.getD i default) ≤ thr)) then
      i :: nmsSelect boxes thr maxOut rest (sel ++ [boxes.getD i default])
    else nmsSelect boxes thr maxOut rest sel

/-- `tf.image.non_max_suppression boxes scores max_output_size iou_threshold`:
returns the selected positions into `boxes`, in selection order. -/
def non_max_suppression (boxes : List Box) (scores : List ℚ)
    (maxOut : ℕ) (thr : ℚ) : List ℕ :=
  nmsSelect boxes thr maxOut (sortedIndices scores) []

/-- The inner helper `_filter_detections(scores, labels)` of the source:
threshold the scores, optionally run NMS on the surviving boxes, then pair
each surviving box index with its label (the `stack` of the source). -/
def filterDetectionsInner (boxes : List Box) (cfg : FilterConfig)
    (scores : List ℚ) (labels : List ℤ) : List (ℕ × ℤ) :=
  let indices := filterIndices scores cfg.score_threshold
  let indices :=
    if cfg.nms then
      let filtered_boxes := indices.map (fun i => boxes.getD i default)
      let filtered_scores := indices.map (fun i => scores.getD i 0)
      let nms_indices := non_max_suppression filtered_boxes filtered_scores
        cfg.max_detections cfg.nms_threshold
      nms_indices.map (fun k => indices.getD k 0)
    else indices
  indices.map (fun i => (i, labels.getD i 0))

/-- `tf.keras.backend.max` along a row (value on the empty row is a junk 0;
the source never reaches it for well-formed input with at least one class). -/
def maxScore : List ℚ → ℚ
  | [] => 0
  | [a] => a
  | a :: b :: l => max a (maxScore (b :: l))

/-- `tf.keras.backend.argmax` along a row: index of the maximum value,
lowest index among ties. -/
def argmaxIdx : List ℚ → ℕ
  | [] => 0
  | [_] => 0
  | a :: b :: l => if a < maxScore (b :: l) then argmaxIdx (b :: l) + 1 else 0

/-- Column `c` of the classification matrix (`classification[:, c]`). -/
def classScores (classification : List (List ℚ)) (c : ℕ) : List ℚ :=
  classification.map (fun row => row.getD c 0)

/-- The candidate `(box index, label)` pairs the source accumulates in
`indices` before the top-k stage: one `_filter_detections` pass per class when
`class_specific_filter`, otherwise a single pass over each box's best class. -/
def candidateIndices (C : ℕ) (boxes : List Box)
    (classification : List (List ℚ)) (cfg : FilterConfig) : List (ℕ × ℤ) :=
  if cfg.class_specific_filter then
    ((List.range C).map (fun c =>
      filterDetectionsInner boxes cfg (classScores classification c)
        (List.replicate classification.length (c : ℤ)))).flatten
  else
    filterDetectionsInner boxes cfg (classification.map maxScore)
      (classification.map (fun row => (argmaxIdx row : ℤ)))

/-- `tf.gather_nd(classification, indices)`: each candidate's score looked up
as `classification[box_index, label]`. -/
def candidateScores (C : ℕ) (boxes : List Box)
    (classification : List (List ℚ)) (cfg : FilterConfig) : List ℚ :=
  (candidateIndices C boxes classification cfg).map
    (fun p => (classification.getD p.1 []).getD p.2.toNat 0)

/-- The number of real (non-padded) detections:
`k = minimum(max_detections, len(scores))` of the source's top-k call. -/
def numReal (C : ℕ) (boxes : List Box)
    (classification : List (List ℚ)) (cfg : FilterConfig) : ℕ :=
  min cfg.max_detections (candidateScores C boxes classification cfg).length

/-- The positions (into the candidate list) returned by `tf.nn.top_k`,
in rank order. -/
def topPositions (C : ℕ) (boxes : List Box)
    (classification : List (List ℚ)) (cfg : FilterConfig) : List ℕ :=
  (sortedIndices (candidateScores C boxes classification cfg)).take
    (numReal C boxes classification cfg)

/-- The output of `filter_detections`:
`[boxes, scores, labels, other[0], other[1], …]`. -/
structure FilterResult where
  boxes : List Box
  scores : List ℚ
  labels : List ℤ
  other : List (List (List ℚ))
deriving DecidableEq, Repr

/-- `filter_detections(boxes, classification, other, …)`: candidate
generation, global top-k, gather, and sentinel padding with -1. `C` is the
static class count `classification.shape[1]`. -/
def filter_detections (C : ℕ) (boxes : List Box)
    (classification : List (List ℚ)) (other : List (List (List ℚ)))
    (cfg : FilterConfig) : FilterResult :=
  let cand := candidateIndices C boxes classification cfg
  let sAll := candidateScores C boxes classification cfg
  let tp := topPositions C boxes classification cfg
  let boxIdx := tp.map (fun p => (cand.getD p (0, 0)).1)
  let pad := cfg.max_detections - numReal C boxes classification cfg
  { boxes := boxIdx.map (fun i => boxes.getD i default) ++
      List.replicate pad ⟨-1, -1, -1, -1⟩
    scores := tp.map (fun p => sAll.getD p 0) ++ List.replicate pad (-1)
    labels := tp.map (fun p => (cand.getD p (0, 0)).2) ++ List.replicate pad (-1)
    other := other.map (fun o =>
      boxIdx.map (fun i => o.getD i []) ++
        List.replicate pad (List.replicate (o.headD []).length (-1))) }

/-! ### NaN-aware model of the score pipeline

Floating-point scores can be NaN; the exact rationals above have no NaN
value. To settle the NaN claim, the candidate generation and the score
output are re-run with scores in `Option ℚ`, where `none` models NaN, with
the IEEE semantics the TF kernels obey: every comparison involving NaN is
false, and `tf.reduce_max` propagates NaN. -/

/-- `tf.keras.backend.greater` on possibly-NaN operands: false whenever
either side is NaN (IEEE comparison semantics). -/
def greaterNaN : Option ℚ → Option ℚ → Bool
  | some a, some t => decide (t < a)
  | _, _ => false

/-- Binary maximum on possibly-NaN values: NaN propagates. -/
def maxNaN : Option ℚ → Option ℚ → Option ℚ
  | some x, some y => some (max x y)
  | _, _ => none

/-- `tf.keras.backend.max` on possibly-NaN values: NaN propagates. -/
def maxScoreNaN : List (Option ℚ) → Option ℚ
  | [] => none
  | [a] => a
  | a :: b :: l => maxNaN a (maxScoreNaN (b :: l))

/-- `tf.keras.backend.argmax` on possibly-NaN values. The claims only reach
this on NaN-free rows, where it agrees with `argmaxIdx`. -/
def argmaxIdxNaN : List (Option ℚ) → ℕ
  | [] => 0
  | [_] => 0
  | a :: b :: l =>
    if greaterNaN (maxScoreNaN (b :: l)) a then argmaxIdxNaN (b :: l) + 1 else 0

/-- Thresholding with NaN-aware comparison: a NaN score (and a NaN threshold)
fails the strict `>` comparison, so the index is dropped. -/
def filterIndicesNaN (s : List (Option ℚ)) (t : Option ℚ) : List ℕ :=
  (List.range s.length).filter (fun i => greaterNaN (s.getD i none) t)

/-- Ranking order on possibly-NaN scores (NaN never survives thresholding, so
no claim depends on how NaN would rank). -/
def scoreRelNaN (s : List (Option ℚ)) (i j : ℕ) : Prop :=
  greaterNaN (s.getD j none) (s.getD i none) = false

instance scoreRelNaNDecidable (s : List (Option ℚ)) :
    DecidableRel (scoreRelNaN s) := fun i j =>
  inferInstanceAs (Decidable (greaterNaN (s.getD j none) (s.getD i none) = false))

def sortedIndicesNaN (s : List (Option ℚ)) : List ℕ :=
  List.insertionSort (scoreRelNaN s) (List.range s.length)

def non_max_suppressionNaN (boxes : List Box) (scores : List (Option ℚ))
    (maxOut : ℕ) (thr : ℚ) : List ℕ :=
  nmsSelect boxes thr maxOut (sortedIndicesNaN scores) []

/-- `_filter_detections` with possibly-NaN scores; `t` is the (possibly NaN)
score threshold, replacing `cfg.score_threshold`. -/
def filterDetectionsInnerNaN (boxes : List Box) (cfg : FilterConfig)
    (t : Option ℚ) (scores : List (Option ℚ)) (labels : List ℤ) :
    List (ℕ × ℤ) :=
  let indices := filterIndicesNaN scores t
  let indices :=
    if cfg.nms then
      let filtered_boxes := indices.map (fun i => boxes.getD i default)
      let filtered_scores := indices.map (fun i => scores.getD i none)
      let nms_indices := non_max_suppressionNaN filtered_boxes filtered_scores
        cfg.max_detections cfg.nms_threshold
      nms_indices.map (fun k => indices.getD k 0)
    else indices
  indices.map (fun i => (i, labels.getD i 0))

def classScoresNaN (classification : List (List (Option ℚ))) (c : ℕ) :
    List (Option ℚ) :=
  classification.map (fun row => row.getD c none)

/-- Candidate accumulation with possibly-NaN scores. -/
def candidateIndicesNaN (C : ℕ) (boxes : List Box)
    (classification : List (List (Option ℚ))) (cfg : FilterConfig)
    (t : Option ℚ) : List (ℕ × ℤ) :=
  if cfg.class_specific_filter then
    ((List.range C).map (fun c =>
      filterDetectionsInnerNaN boxes cfg t (classScoresNaN classification c)
        (List.replicate classification.length (c : ℤ)))).flatten
  else
    filterDetectionsInnerNaN boxes cfg t (classification.map maxScoreNaN)
      (classification.map (fun row => (argmaxIdxNaN row : ℤ)))

def candidateScoresNaN (C : ℕ) (boxes : List Box)
    (classification : List (List (Option ℚ))) (cfg : FilterConfig)
    (t : Option ℚ) : List (Option ℚ) :=
  (candidateIndicesNaN C boxes classification cfg t).map
    (fun p => (classification.getD p.1 []).getD p.2.toNat none)

/-- The scores output (`tf.nn.top_k` values then sentinel padding) with
possibly-NaN scores. -/
def outScoresNaN (C : ℕ) (boxes : List Box)
    (classification : List (List (Option ℚ))) (cfg : FilterConfig)
    (t : Option ℚ) : List (Option ℚ) :=
  ((sortedIndicesNaN (candidateScoresNaN C boxes classification cfg t)).take
      (min cfg.max_detections
        (candidateScoresNaN C boxes classification cfg t).length)).map
    (fun p => (candidateScoresNaN C boxes classification cfg t).getD p none) ++
  List.replicate (cfg.max_detections -
    min cfg.max_detections
      (candidateScoresNaN C boxes classification cfg t).length) (some (-1))

/-! ### Concrete inputs used by the witness theorems -/

/-- Three pairwise-disjoint boxes. -/
def wBoxes : List Box := [⟨0, 0, 2, 2⟩, ⟨10, 10, 12, 12⟩, ⟨20, 20, 22, 22⟩]

/-- One class; scores 4, 3, 1. -/
def wCls : List (List ℚ) := [[4], [3], [1]]

def wCfg : FilterConfig :=
  { class_specific_filter := true, nms := true, score_threshold := 2,
    max_detections := 2, nms_threshold := 0 }

def wCfg1 : FilterConfig :=
  { class_specific_filter := true, nms := false, score_threshold := 2,
    max_detections := 1, nms_threshold := 0 }

/-- Two disjoint boxes. -/
def wBoxesTie : List Box := [⟨0, 0, 1, 1⟩, ⟨5, 5, 6, 6⟩]

/-- One class, tied scores. -/
def wClsTie : List (List ℚ) := [[3], [3]]

def wCfgTie : FilterConfig :=
  { class_specific_filter := true, nms := false, score_threshold := 1,
    max_detections := 5, nms_threshold := 0 }

/-- One class; the first box's score is NaN (`none`), the second is 3. -/
def wClsNaN : List (List (Option ℚ)) := [[none], [some 3]]

def wCfgNaN : FilterConfig :=
  { class_specific_filter := true, nms := false, score_threshold := 0,
    max_detections := 2, nms_threshold := 0 }

/-! ### Basic lemmas about the embedded operations -/

theorem getD_map {α β : Type} (f : α → β) (l : List α) (n : ℕ) (d : β) (d' : α)
    (h : n < l.length) : (l.map f).getD n d = f (l.getD n d') := by
  rw [List.getD_eq_getElem _ _ (by simpa using h), List.getD_eq_getElem _ _ h,
    List.getElem_map]

theorem getD_mem {α : Type} (l : List α) (n : ℕ) (d : α) (h : n < l.length) :
    l.getD n d ∈ l := by
  rw [List.getD_eq_getElem _ _ h]
  exact List.getElem_mem h

theorem getD_replicate {α : Type} (a d : α) {n m : ℕ} (h : m < n) :
    (List.replicate n a).getD m d = a := by
  rw [List.getD_eq_getElem _ _ (by simpa using h), List.getElem_replicate]

theorem mem_filterIndices {s : List ℚ} {t : ℚ} {i : ℕ} :
    i ∈ filterIndices s t ↔ i < s.length ∧ t < s.getD i 0 := by
  simp [filterIndices, List.mem_filter, List.mem_range]

theorem mem_sortedIndices {s : List ℚ} {i : ℕ} :
    i ∈ sortedIndices s ↔ i < s.length := by
  unfold sortedIndices
  rw [(List.perm_insertionSort _ _).mem_iff, List.mem_range]

theorem sortedIndices_length (s : List ℚ) :
    (sortedIndices s).length = s.length := by
  unfold sortedIndices
  rw [(List.perm_insertionSort _ _).length_eq, List.length_range]

theorem sortedIndices_nodup (s : List ℚ) : (sortedIndices s).Nodup :=
  (List.nodup_range _).perm (List.perm_insertionSort _ _).symm

theorem sortedIndices_sorted (s : List ℚ) :
    List.Sorted (scoreRel s) (sortedIndices s) :=
  List.sorted_insertionSort _ _

theorem nmsSelect_subset {boxes : List Box} {thr : ℚ} {maxOut : ℕ} :
    ∀ (order : List ℕ) (sel : List Box) {x : ℕ},
      x ∈ nmsSelect boxes thr maxOut order sel → x ∈ order := by
  intro order
  induction order with
  | nil => intro sel x hx; simp [nmsSelect] at hx
  | cons i rest ih =>
    intro sel x hx
    simp only [nmsSelect] at hx
    by_cases h1 : maxOut ≤ sel.length
    · rw [if_pos h1] at hx
      simp at hx
    · rw [if_neg h1] at hx
      by_cases h2 : sel.all (fun b => decide (iou b (boxes.getD i default) ≤ thr))
      · rw [if_pos h2] at hx
        rcases List.mem_cons.mp hx with rfl | hx
        · exact List.mem_cons_self _ _
        · exact List.mem_cons_of_mem _ (ih _ hx)
      · rw [if_neg h2] at hx
        exact List.mem_cons_of_mem _ (ih _ hx)

theorem nmsSelect_pairwise (boxes : List Box) (thr : ℚ) (maxOut : ℕ) :
    ∀ (order : List ℕ) (sel : List Box),
      sel.Pairwise (fun a b => iou a b ≤ thr) →
      (sel ++ (nmsSelect boxes thr maxOut order sel).map
        (fun i => boxes.getD i default)).Pairwise (fun a b => iou a b ≤ thr) := by
  intro order
  induction order with
  | nil => intro sel h; simpa [nmsSelect] using h
  | cons i rest ih =>
    intro sel h
    simp only [nmsSelect]
    by_cases h1 : maxOut ≤ sel.length
    · rw [if_pos h1]
      simpa using h
    · rw [if_neg h1]
      by_cases h2 : sel.all (fun b => decide (iou b (boxes.getD i default) ≤ thr))
      · rw [if_pos h2]
        have hsel : (sel ++ [boxes.getD i default]).Pairwise
            (fun a b => iou a b ≤ thr) := by
          rw [List.pairwise_append]
          refine ⟨h, List.pairwise_singleton _ _, ?_⟩
          intro a ha b hb
          rw [List.mem_singleton] at hb
          subst hb
          exact of_decide_eq_true (List.all_eq_true.mp h2 a ha)
        have hrec := ih (sel ++ [boxes.getD i default]) hsel
        rw [List.append_assoc] at hrec
        simpa using hrec
      · rw [if_neg h2]
        exact ih sel h

theorem non_max_suppression_pairwise (boxes : List Box) (scores : List ℚ)
    (maxOut : ℕ) (thr : ℚ) :
    ((non_max_suppression boxes scores maxOut thr).map
      (fun i => boxes.getD i default)).Pairwise (fun a b => iou a b ≤ thr) := by
  have h := nmsSelect_pairwise boxes thr maxOut (sortedIndices scores) []
    (List.Pairwise.nil)
  simpa [non_max_suppression] using h

theorem mem_non_max_suppression {boxes : List Box} {scores : List ℚ}
    {maxOut : ℕ} {thr : ℚ} {x : ℕ}
    (hx : x ∈ non_max_suppression boxes scores maxOut thr) : x < scores.length :=
  mem_sortedIndices.mp (nmsSelect_subset _ _ hx)

theorem interArea_comm (a b : Box) : interArea a b = interArea b a := by
  unfold interArea
  rw [min_comm (max a.x1 a.x2), max_comm (min a.x1 a.x2),
    min_comm (max a.y1 a.y2), max_comm (min a.y1 a.y2)]

theorem iou_comm (a b : Box) : iou a b = iou b a := by
  unfold iou
  rw [interArea_comm, add_comm (boxArea a)]
  by_cases h : boxArea a ≤ 0 ∨ boxArea b ≤ 0
  · rw [if_pos h, if_pos (Or.symm h)]
  · rw [if_neg h, if_neg (fun hc => h (Or.symm hc))]

/-! ### Lemmas about the inner `_filter_detections` pass -/

theorem mem_inner {boxes : List Box} {cfg : FilterConfig} {scores : List ℚ}
    {labels : List ℤ} {p : ℕ × ℤ}
    (hp : p ∈ filterDetectionsInner boxes cfg scores labels) :
    p.1 ∈ filterIndices scores cfg.score_threshold ∧
    p.2 = labels.getD p.1 0 := by
  simp only [filterDetectionsInner] at hp
  rcases List.mem_map.mp hp with ⟨i, hi, rfl⟩
  refine ⟨?_, rfl⟩
  by_cases hnms : cfg.nms = true
  · rw [if_pos hnms] at hi
    rcases List.mem_map.mp hi with ⟨k, hk, rfl⟩
    have hklt : k < (filterIndices scores cfg.score_threshold).length := by
      have := mem_non_max_suppression hk
      simpa using this
    exact getD_mem _ _ _ hklt
  · rw [if_neg hnms] at hi
    exact hi

theorem inner_pairwise {boxes : List Box} {cfg : FilterConfig} {scores : List ℚ}
    {labels : List ℤ} (hnms : cfg.nms = true) :
    (filterDetectionsInner boxes cfg scores labels).Pairwise
      (fun p q => iou (boxes.getD p.1 default) (boxes.getD q.1 default) ≤
        cfg.nms_threshold) := by
  have base := non_max_suppression_pairwise
    ((filterIndices scores cfg.score_threshold).map (fun i => boxes.getD i default))
    ((filterIndices scores cfg.score_threshold).map (fun i => scores.getD i 0))
    cfg.max_detections cfg.nms_threshold
  rw [List.pairwise_map] at base
  simp only [filterDetectionsInner, hnms, if_true]
  rw [List.pairwise_map, List.pairwise_map]
  refine base.imp_of_mem ?_
  intro a b ha hb hab
  have hla : a < (filterIndices scores cfg.score_threshold).length := by
    have := mem_non_max_suppression ha
    simpa using this
  have hlb : b < (filterIndices scores cfg.score_threshold).length := by
    have := mem_non_max_suppression hb
    simpa using this
  rw [getD_map _ _ _ _ 0 hla, getD_map _ _ _ _ 0 hlb] at hab
  exact hab

/-! ### Lemmas about `max` / `argmax` along a row -/

theorem getD_argmaxIdx : ∀ l : List ℚ, l.getD (argmaxIdx l) 0 = maxScore l
  | [] => rfl
  | [_] => rfl
  | a :: b :: l => by
    rw [maxScore, argmaxIdx]
    by_cases h : a < maxScore (b :: l)
    · rw [if_pos h, List.getD_cons_succ, getD_argmaxIdx (b :: l),
        max_eq_right h.le]
    · rw [if_neg h, List.getD_cons_zero, max_eq_left (le_of_not_lt h)]

theorem argmaxIdx_lt : ∀ l : List ℚ, l ≠ [] → argmaxIdx l < l.length
  | [], h => absurd rfl h
  | [_], _ => by simp [argmaxIdx]
  | a :: b :: l, _ => by
    rw [argmaxIdx]
    by_cases h : a < maxScore (b :: l)
    · rw [if_pos h]
      have := argmaxIdx_lt (b :: l) (by simp)
      simpa using Nat.succ_lt_succ this
    · rw [if_neg h]
      simp

/-! ### Lemmas about the accumulated candidate list -/

/-- What being a candidate means: the box index is in range, the label is a
valid non-negative class index, and the score looked up by the top-k stage,
`classification[box_index, label]`, is strictly above the threshold. -/
theorem candidate_spec {C : ℕ} {boxes : List Box} {classification : List (List ℚ)}
    {cfg : FilterConfig} {p : ℕ × ℤ}
    (hp : p ∈ candidateIndices C boxes classification cfg) :
    p.1 < classification.length ∧ 0 ≤ p.2 ∧
    cfg.score_threshold < (classification.getD p.1 []).getD p.2.toNat 0 ∧
    (cfg.class_specific_filter = true → p.2 < (C : ℤ)) ∧
    (cfg.class_specific_filter = false →
      p.2 = (argmaxIdx (classification.getD p.1 []) : ℤ)) := by
  unfold candidateIndices at hp
  by_cases hcs : cfg.class_specific_filter = true
  · rw [if_pos hcs] at hp
    rcases List.mem_flatten.mp hp with ⟨l, hl, hpl⟩
    rcases List.mem_map.mp hl with ⟨c, hc, rfl⟩
    rw [List.mem_range] at hc
    obtain ⟨hfi, hlab⟩ := mem_inner hpl
    rw [mem_filterIndices] at hfi
    have hN : p.1 < classification.length := by
      simpa [classScores] using hfi.1
    have hlabel : p.2 = (c : ℤ) := by
      rw [hlab, getD_replicate _ _ hN]
    have hscore : cfg.score_threshold <
        (classification.getD p.1 []).getD p.2.toNat 0 := by
      have := hfi.2
      rw [classScores, getD_map _ _ _ _ [] hN] at this
      rwa [hlabel, Int.toNat_natCast]
    refine ⟨hN, ?_, hscore, ?_, ?_⟩
    · rw [hlabel]; exact Int.natCast_nonneg c
    · intro _; rw [hlabel]; exact_mod_cast hc
    · intro hfalse; rw [hcs] at hfalse; cases hfalse
  · rw [if_neg hcs] at hp
    obtain ⟨hfi, hlab⟩ := mem_inner hp
    rw [mem_filterIndices] at hfi
    have hN : p.1 < classification.length := by simpa using hfi.1
    have hlabel : p.2 = (argmaxIdx (classification.getD p.1 []) : ℤ) := by
      rw [hlab, getD_map _ _ _ _ [] hN]
    have hscore : cfg.score_threshold <
        (classification.getD p.1 []).getD p.2.toNat 0 := by
      have := hfi.2
      rw [getD_map _ _ _ _ [] hN] at this
      rw [hlabel, Int.toNat_natCast, getD_argmaxIdx]
      exact this
    refine ⟨hN, ?_, hscore, ?_, fun _ => hlabel⟩
    · rw [hlabel]; exact Int.natCast_nonneg _
    · intro htrue; exact absurd htrue hcs

/-- When NMS is enabled, any two candidates carrying the same label were kept
by the same suppression call, so their boxes overlap at most `nms_threshold`. -/
theorem candidates_pairwise (C : ℕ) (boxes : List Box)
    (classification : List (List ℚ)) (cfg : FilterConfig)
    (hnms : cfg.nms = true) :
    (candidateIndices C boxes classification cfg).Pairwise
      (fun p q => p.2 = q.2 →
        iou (boxes.getD p.1 default) (boxes.getD q.1 default) ≤
          cfg.nms_threshold) := by
  unfold candidateIndices
  by_cases hcs : cfg.class_specific_filter = true
  · rw [if_pos hcs]
    rw [List.pairwise_flatten]
    constructor
    · intro l hl
      rcases List.mem_map.mp hl with ⟨c, _, rfl⟩
      refine (inner_pairwise hnms).imp ?_
      intro p q h
      exact fun _ => h
    · rw [List.pairwise_map]
      have hlt : (List.range C).Pairwise (· < ·) := List.pairwise_lt_range C
      refine hlt.imp_of_mem ?_
      intro c₁ c₂ _ _ hc12 x hx y hy hxy
      obtain ⟨hfx, hlx⟩ := mem_inner hx
      obtain ⟨hfy, hly⟩ := mem_inner hy
      rw [mem_filterIndices] at hfx hfy
      have hNx : x.1 < classification.length := by simpa [classScores] using hfx.1
      have hNy : y.1 < classification.length := by simpa [classScores] using hfy.1
      rw [hlx, getD_replicate _ _ hNx] at hxy
      rw [hly, getD_replicate _ _ hNy] at hxy
      have : c₁ = c₂ := by exact_mod_cast hxy
      omega
  · rw [if_neg hcs]
    refine (inner_pairwise hnms).imp ?_
    intro p q h
    exact fun _ => h

/-! ### Lemmas about the top-k positions and the rows of the output -/

theorem topPositions_length (C : ℕ) (boxes : List Box)
    (classification : List (List ℚ)) (cfg : FilterConfig) :
    (topPositions C boxes classification cfg).length =
      numReal C boxes classification cfg := by
  unfold topPositions
  rw [List.length_take, sortedIndices_length]
  exact min_eq_left (Nat.min_le_right _ _)

theorem topPositions_getD_lt {C : ℕ} {boxes : List Box}
    {classification : List (List ℚ)} {cfg : FilterConfig} {r : ℕ}
    (hr : r < numReal C boxes classification cfg) :
    (topPositions C boxes classification cfg).getD r 0 <
      (candidateScores C boxes classification cfg).length := by
  have hlen : r < (topPositions C boxes classification cfg).length := by
    rw [topPositions_length]; exact hr
  exact mem_sortedIndices.mp
    ((List.take_sublist _ _).subset (getD_mem _ _ _ hlen))

theorem topPositions_nodup (C : ℕ) (boxes : List Box)
    (classification : List (List ℚ)) (cfg : FilterConfig) :
    (topPositions C boxes classification cfg).Nodup :=
  List.Nodup.sublist (List.take_sublist _ _) (sortedIndices_nodup _)

theorem topPositions_sorted (C : ℕ) (boxes : List Box)
    (classification : List (List ℚ)) (cfg : FilterConfig) :
    List.Sorted (scoreRel (candidateScores C boxes classification cfg))
      (topPositions C boxes classification cfg) :=
  List.Pairwise.sublist (List.take_sublist _ _) (sortedIndices_sorted _)

theorem out_scores_real (C : ℕ) (boxes : List Box)
    (classification : List (List ℚ)) (other : List (List (List ℚ)))
    (cfg : FilterConfig) {r : ℕ} (hr : r < numReal C boxes classification cfg) :
    (filter_detections C boxes classification other cfg).scores.getD r 0 =
      (candidateScores C boxes classification cfg).getD
        ((topPositions C boxes classification cfg).getD r 0) 0 := by
  have hlen : r < (topPositions C boxes classification cfg).length := by
    rw [topPositions_length]; exact hr
  simp only [filter_detections]
  rw [List.getD_append _ _ _ r (by simpa using hlen), getD_map _ _ _ _ 0 hlen]

theorem out_labels_real (C : ℕ) (boxes : List Box)
    (classification : List (List ℚ)) (other : List (List (List ℚ)))
    (cfg : FilterConfig) {r : ℕ} (hr : r < numReal C boxes classification cfg) :
    (filter_detections C boxes classification other cfg).labels.getD r 0 =
      ((candidateIndices C boxes classification cfg).getD
        ((topPositions C boxes classification cfg).getD r 0) (0, 0)).2 := by
  have hlen : r < (topPositions C boxes classification cfg).length := by
    rw [topPositions_length]; exact hr
  simp only [filter_detections]
  rw [List.getD_append _ _ _ r (by simpa using hlen), getD_map _ _ _ _ 0 hlen]

theorem out_boxes_real (C : ℕ) (boxes : List Box)
    (classification : List (List ℚ)) (other : List (List (List ℚ)))
    (cfg : FilterConfig) {r : ℕ} (hr : r < numReal C boxes classification cfg) :
    (filter_detections C boxes classification other cfg).boxes.getD r default =
      boxes.getD ((candidateIndices C boxes classification cfg).getD
        ((topPositions C boxes classification cfg).getD r 0) (0, 0)).1 default := by
  have hlen : r < (topPositions C boxes classification cfg).length := by
    rw [topPositions_length]; exact hr
  simp only [filter_detections]
  rw [List.getD_append _ _ _ r (by simpa using hlen),
    getD_map _ _ _ _ 0 (by simpa using hlen), getD_map _ _ _ _ 0 hlen]

theorem out_other_real (C : ℕ) (boxes : List Box)
    (classification : List (List ℚ)) (other : List (List (List ℚ)))
    (cfg : FilterConfig) {r : ℕ} (hr : r < numReal C boxes classification cfg)
    {j : ℕ} (hj : j < other.length) :
    ((filter_detections C boxes classification other cfg).other.getD j []).getD r [] =
      (other.getD j []).getD ((candidateIndices C boxes classification cfg).getD
        ((topPositions C boxes classification cfg).getD r 0) (0, 0)).1 [] := by
  have hlen : r < (topPositions C boxes classification cfg).length := by
    rw [topPositions_length]; exact hr
  simp only [filter_detections]
  rw [getD_map _ _ _ _ [] hj,
    List.getD_append _ _ _ r (by simpa using hlen),
    getD_map _ _ _ _ 0 (by simpa using hlen), getD_map _ _ _ _ 0 hlen]

theorem out_scores_pad (C : ℕ) (boxes : List Box)
    (classification : List (List ℚ)) (other : List (List (List ℚ)))
    (cfg : FilterConfig) {r : ℕ} (h1 : numReal C boxes classification cfg ≤ r)
    (h2 : r < cfg.max_detections) :
    (filter_detections C boxes classification other cfg).scores.getD r 0 = -1 := by
  have hlen : (topPositions C boxes classification cfg).length ≤ r := by
    rw [topPositions_length]; exact h1
  simp only [filter_detections]
  rw [List.getD_append_right _ _ _ r (by simpa using hlen)]
  rw [List.length_map, topPositions_length]
  exact getD_replicate _ _ (Nat.sub_lt_sub_right h1 h2)

theorem out_labels_pad (C : ℕ) (boxes : List Box)
    (classification : List (List ℚ)) (other : List (List (List ℚ)))
    (cfg : FilterConfig) {r : ℕ} (h1 : numReal C boxes classification cfg ≤ r)
    (h2 : r < cfg.max_detections) :
    (filter_detections C boxes classification other cfg).labels.getD r 0 = -1 := by
  have hlen : (topPositions C boxes classification cfg).length ≤ r := by
    rw [topPositions_length]; exact h1
  simp only [filter_detections]
  rw [List.getD_append_right _ _ _ r (by simpa using hlen)]
  rw [List.length_map, topPositions_length]
  exact getD_replicate _ _ (Nat.sub_lt_sub_right h1 h2)

theorem out_boxes_pad (C : ℕ) (boxes : List Box)
    (classification : List (List ℚ)) (other : List (List (List ℚ)))
    (cfg : FilterConfig) {r : ℕ} (h1 : numReal C boxes classification cfg ≤ r)
    (h2 : r < cfg.max_detections) :
    (filter_detections C boxes classification other cfg).boxes.getD r default =
      ⟨-1, -1, -1, -1⟩ := by
  have hlen : (topPositions C boxes classification cfg).length ≤ r := by
    rw [topPositions_length]; exact h1
  simp only [filter_detections]
  rw [List.getD_append_right _ _ _ r (by simpa using hlen)]
  rw [List.length_map, List.length_map, topPositions_length]
  exact getD_replicate _ _ (Nat.sub_lt_sub_right h1 h2)

theorem out_other_pad (C : ℕ) (boxes : List Box)
    (classification : List (List ℚ)) (other : List (List (List ℚ)))
    (cfg : FilterConfig) {r : ℕ} (h1 : numReal C boxes classification cfg ≤ r)
    (h2 : r < cfg.max_detections) {j : ℕ} (hj : j < other.length) :
    ((filter_detections C boxes classification other cfg).other.getD j []).getD r [] =
      List.replicate ((other.getD j []).headD []).length (-1) := by
  have hlen : (topPositions C boxes classification cfg).length ≤ r := by
    rw [topPositions_length]; exact h1
  simp only [filter_detections]
  rw [getD_map _ _ _ _ [] hj]
  rw [List.getD_append_right _ _ _ r (by simpa using hlen)]
  rw [List.length_map, List.length_map, topPositions_length]
  exact getD_replicate _ _ (Nat.sub_lt_sub_right h1 h2)

theorem out_lengths (C : ℕ) (boxes : List Box)
    (classification : List (List ℚ)) (other : List (List (List ℚ)))
    (cfg : FilterConfig) :
    (filter_detections C boxes classification other cfg).boxes.length =
      cfg.max_detections ∧
    (filter_detections C boxes classification other cfg).scores.length =
      cfg.max_detections ∧
    (filter_detections C boxes classification other cfg).labels.length =
      cfg.max_detections ∧
    (filter_detections C boxes classification other cfg).other.length =
      other.length ∧
    ∀ o ∈ (filter_detections C boxes classification other cfg).other,
      o.length = cfg.max_detections := by
  have hle : numReal C boxes classification cfg ≤ cfg.max_detections :=
    Nat.min_le_left _ _
  have hsum : numReal C boxes classification cfg +
      (cfg.max_detections - numReal C boxes classification cfg) =
      cfg.max_detections := Nat.add_sub_cancel' hle
  simp only [filter_detections]
  refine ⟨?_, ?_, ?_, ?_, ?_⟩
  · simp [topPositions_length, hsum]
  · simp [topPositions_length, hsum]
  · simp [topPositions_length, hsum]
  · simp
  · intro o ho
    rcases List.mem_map.mp ho with ⟨o', _, rfl⟩
    simp [topPositions_length, hsum]

/-! ### Degenerate-input lemmas -/

theorem inner_nil (boxes : List Box) (cfg : FilterConfig) (labels : List ℤ) :
    filterDetectionsInner boxes cfg [] labels = [] := by
  cases h : cfg.nms <;>
    simp [filterDetectionsInner, h, filterIndices, non_max_suppression,
      sortedIndices, nmsSelect, List.range_zero]

theorem candidateIndices_nil (C : ℕ) (boxes : List Box) (cfg : FilterConfig) :
    candidateIndices C boxes [] cfg = [] := by
  cases h : cfg.class_specific_filter <;>
    simp [candidateIndices, h, classScores, inner_nil]

theorem numReal_nil (C : ℕ) (boxes : List Box) (cfg : FilterConfig) :
    numReal C boxes [] cfg = 0 := by
  simp [numReal, candidateScores, candidateIndices_nil]

/-! ### The claims -/

/-- C1: for every input and configuration, each output of `filter_detections`
has exactly `max_detections` leading entries (boxes are 4-field records by
construction, so `boxes` is `(max_detections, 4)`), there is one filtered
auxiliary output per auxiliary input, each of leading dimension
`max_detections`; and the selection is a top-k by score: every candidate that
is dropped (not at a selected position) scores at most every kept candidate,
so surplus candidates are dropped without error. -/
theorem C1_fixed_width (C : ℕ) (boxes : List Box)
    (classification : List (List ℚ)) (other : List (List (List ℚ)))
    (cfg : FilterConfig) :
    (filter_detections C boxes classification other cfg).boxes.length =
      cfg.max_detections ∧
    (filter_detections C boxes classification other cfg).scores.length =
      cfg.max_detections ∧
    (filter_detections C boxes classification other cfg).labels.length =
      cfg.max_detections ∧
    (filter_detections C boxes classification other cfg).other.length =
      other.length ∧
    (∀ o ∈ (filter_detections C boxes classification other cfg).other,
      o.length = cfg.max_detections) ∧
    ∀ p ∈ topPositions C boxes classification cfg,
      ∀ q, q < (candidateScores C boxes classification cfg).length →
        q ∉ topPositions C boxes classification cfg →
        (candidateScores C boxes classification cfg).getD q 0 ≤
          (candidateScores C boxes classification cfg).getD p 0 := by
  obtain ⟨h1, h2, h3, h4, h5⟩ := out_lengths C boxes classification other cfg
  refine ⟨h1, h2, h3, h4, h5, ?_⟩
  intro p hp q hq hqnot
  have hsorted : List.Pairwise (scoreRel (candidateScores C boxes classification cfg))
      (sortedIndices (candidateScores C boxes classification cfg)) :=
    sortedIndices_sorted _
  have hsplit := List.take_append_drop (numReal C boxes classification cfg)
    (sortedIndices (candidateScores C boxes classification cfg))
  rw [← hsplit, List.pairwise_append] at hsorted
  have hqd : q ∈ (sortedIndices (candidateScores C boxes classification cfg)).drop
      (numReal C boxes classification cfg) := by
    have hmem : q ∈ sortedIndices (candidateScores C boxes classification cfg) :=
      mem_sortedIndices.mpr hq
    rw [← hsplit, List.mem_append] at hmem
    rcases hmem with h | h
    · exact absurd h hqnot
    · exact h
  have hrel := hsorted.2.2 p hp q hqd
  rcases hrel with h | ⟨h, _⟩
  · exact h.le
  · exact h.ge

/-- C2: if fewer than `max_detections` candidates survive, every output entry
beyond the real count is the sentinel -1 in every field: the padded box row is
`(-1,-1,-1,-1)`, the padded score and label are -1, and every element of each
padded auxiliary row is -1; and in the extreme case `N = 0` (an empty
classification matrix) zero candidates survive, so everything is padding. -/
theorem C2_padding (C : ℕ) (boxes : List Box)
    (classification : List (List ℚ)) (other : List (List (List ℚ)))
    (cfg : FilterConfig) {r : ℕ}
    (h1 : numReal C boxes classification cfg ≤ r)
    (h2 : r < cfg.max_detections) :
    (filter_detections C boxes classification other cfg).boxes.getD r default =
      ⟨-1, -1, -1, -1⟩ ∧
    (filter_detections C boxes classification other cfg).scores.getD r 0 = -1 ∧
    (filter_detections C boxes classification other cfg).labels.getD r 0 = -1 ∧
    (∀ j, j < other.length →
      ∀ x ∈ ((filter_detections C boxes classification other cfg).other.getD j []).getD r [],
        x = -1) ∧
    (classification = [] → numReal C boxes classification cfg = 0) := by
  refine ⟨out_boxes_pad C boxes classification other cfg h1 h2,
    out_scores_pad C boxes classification other cfg h1 h2,
    out_labels_pad C boxes classification other cfg h1 h2, ?_, ?_⟩
  · intro j hj x hx
    rw [out_other_pad C boxes classification other cfg h1 h2 hj] at hx
    exact (List.mem_replicate.mp hx).2
  · intro hnil
    subst hnil
    exact numReal_nil C boxes cfg

/-- C3: when `nms` is enabled, any two distinct non-padded output rows that
carry the same label have boxes whose IoU does not exceed `nms_threshold`:
same-label candidates survive the same greedy suppression call, which only
keeps a box when its IoU with every already-selected box is at most the
threshold. -/
theorem C3_suppression (C : ℕ) (boxes : List Box)
    (classification : List (List ℚ)) (other : List (List (List ℚ)))
    (cfg : FilterConfig) (hnms : cfg.nms = true) {r s : ℕ}
    (hr : r < numReal C boxes classification cfg)
    (hs : s < numReal C boxes classification cfg) (hne : r ≠ s)
    (hlab : (filter_detections C boxes classification other cfg).labels.getD r 0 =
      (filter_detections C boxes classification other cfg).labels.getD s 0) :
    iou ((filter_detections C boxes classification other cfg).boxes.getD r default)
      ((filter_detections C boxes classification other cfg).boxes.getD s default) ≤
      cfg.nms_threshold := by
  rw [out_labels_real C boxes classification other cfg hr,
    out_labels_real C boxes classification other cfg hs] at hlab
  rw [out_boxes_real C boxes classification other cfg hr,
    out_boxes_real C boxes classification other cfg hs]
  have hrlen : r < (topPositions C boxes classification cfg).length := by
    rw [topPositions_length]; exact hr
  have hslen : s < (topPositions C boxes classification cfg).length := by
    rw [topPositions_length]; exact hs
  have hp : (topPositions C boxes classification cfg).getD r 0 <
      (candidateIndices C boxes classification cfg).length := by
    have := topPositions_getD_lt hr
    simpa [candidateScores] using this
  have hq : (topPositions C boxes classification cfg).getD s 0 <
      (candidateIndices C boxes classification cfg).length := by
    have := topPositions_getD_lt hs
    simpa [candidateScores] using this
  have hpq : (topPositions C boxes classification cfg).getD r 0 ≠
      (topPositions C boxes classification cfg).getD s 0 := by
    intro heq
    apply hne
    rw [List.getD_eq_getElem _ _ hrlen, List.getD_eq_getElem _ _ hslen] at heq
    exact (topPositions_nodup C boxes classification cfg).getElem_inj_iff.mp heq
  have hpw := candidates_pairwise C boxes classification cfg hnms
  rw [List.pairwise_iff_getElem] at hpw
  rw [List.getD_eq_getElem _ _ hp, List.getD_eq_getElem _ _ hq] at hlab ⊢
  rcases Nat.lt_or_ge ((topPositions C boxes classification cfg).getD r 0)
      ((topPositions C boxes classification cfg).getD s 0) with hlt | hge
  · exact hpw _ _ hp hq hlt hlab
  · have hlt : (topPositions C boxes classification cfg).getD s 0 <
        (topPositions C boxes classification cfg).getD r 0 :=
      lt_of_le_of_ne hge (Ne.symm hpq)
    have h2 := hpw _ _ hq hp hlt hlab.symm
    rw [iou_comm] at h2
    exact h2

/-- C4: among the non-padded output rows, scores are non-increasing by row
index, because the rows are emitted in `tf.nn.top_k` rank order. -/
theorem C4_score_order (C : ℕ) (boxes : List Box)
    (classification : List (List ℚ)) (other : List (List (List ℚ)))
    (cfg : FilterConfig) {r s : ℕ} (hrs : r ≤ s)
    (hs : s < numReal C boxes classification cfg) :
    (filter_detections C boxes classification other cfg).scores.getD s 0 ≤
      (filter_detections C boxes classification other cfg).scores.getD r 0 := by
  have hr : r < numReal C boxes classification cfg := lt_of_le_of_lt hrs hs
  rw [out_scores_real C boxes classification other cfg hr,
    out_scores_real C boxes classification other cfg hs]
  rcases eq_or_lt_of_le hrs with rfl | hlt
  · exact le_refl _
  · have hrlen : r < (topPositions C boxes classification cfg).length := by
      rw [topPositions_length]; exact hr
    have hslen : s < (topPositions C boxes classification cfg).length := by
      rw [topPositions_length]; exact hs
    have hsorted : List.Pairwise
        (scoreRel (candidateScores C boxes classification cfg))
        (topPositions C boxes classification cfg) :=
      topPositions_sorted C boxes classification cfg
    rw [List.pairwise_iff_getElem] at hsorted
    have hrel := hsorted r s hrlen hslen hlt
    rw [List.getD_eq_getElem _ _ hrlen, List.getD_eq_getElem _ _ hslen]
    rcases hrel with h | ⟨h, _⟩
    · exact h.le
    · exact h.ge

/-- C5: no non-padded output row has a score at or below `score_threshold`:
every candidate's looked-up score `classification[box_index, label]` passed a
strict `>` comparison on both the per-class path and the best-class path. -/
theorem C5_threshold (C : ℕ) (boxes : List Box)
    (classification : List (List ℚ)) (other : List (List (List ℚ)))
    (cfg : FilterConfig) {r : ℕ}
    (hr : r < numReal C boxes classification cfg) :
    cfg.score_threshold <
      (filter_detections C boxes classification other cfg).scores.getD r 0 := by
  rw [out_scores_real C boxes classification other cfg hr]
  have hp : (topPositions C boxes classification cfg).getD r 0 <
      (candidateIndices C boxes classification cfg).length := by
    have := topPositions_getD_lt hr
    simpa [candidateScores] using this
  have hval : (candidateScores C boxes classification cfg).getD
      ((topPositions C boxes classification cfg).getD r 0) 0 =
      (classification.getD ((candidateIndices C boxes classification cfg).getD
          ((topPositions C boxes classification cfg).getD r 0) (0, 0)).1 []).getD
        ((candidateIndices C boxes classification cfg).getD
          ((topPositions C boxes classification cfg).getD r 0) (0, 0)).2.toNat 0 :=
    getD_map _ _ _ _ (0, 0) hp
  rw [hval]
  exact (candidate_spec (getD_mem _ _ _ hp)).2.2.1

/-- C6: each non-padded output row is the faithful gather of its selected
candidate, in top-k rank order: the score is `classification[box_index, label]`,
the box is `boxes[box_index]`, the label is the candidate's label, and each
auxiliary row is `other[j][box_index]`, mirroring the ordering of boxes. -/
theorem C6_gather (C : ℕ) (boxes : List Box)
    (classification : List (List ℚ)) (other : List (List (List ℚ)))
    (cfg : FilterConfig) {r : ℕ}
    (hr : r < numReal C boxes classification cfg) :
    ∃ p, p = (topPositions C boxes classification cfg).getD r 0 ∧
      p < (candidateIndices C boxes classification cfg).length ∧
      (candidateIndices C boxes classification cfg).getD p (0, 0) ∈
        candidateIndices C boxes classification cfg ∧
      (filter_detections C boxes classification other cfg).scores.getD r 0 =
        (classification.getD ((candidateIndices C boxes classification cfg).getD p (0, 0)).1 []).getD
          ((candidateIndices C boxes classification cfg).getD p (0, 0)).2.toNat 0 ∧
      (filter_detections C boxes classification other cfg).labels.getD r 0 =
        ((candidateIndices C boxes classification cfg).getD p (0, 0)).2 ∧
      (filter_detections C boxes classification other cfg).boxes.getD r default =
        boxes.getD ((candidateIndices C boxes classification cfg).getD p (0, 0)).1 default ∧
      ∀ j, j < other.length →
        ((filter_detections C boxes classification other cfg).other.getD j []).getD r [] =
          (other.getD j []).getD
            ((candidateIndices C boxes classification cfg).getD p (0, 0)).1 [] := by
  refine ⟨(topPositions C boxes classification cfg).getD r 0, rfl, ?_, ?_, ?_, ?_, ?_, ?_⟩
  · have := topPositions_getD_lt hr
    simpa [candidateScores] using this
  · have hp : (topPositions C boxes classification cfg).getD r 0 <
        (candidateIndices C boxes classification cfg).length := by
      have := topPositions_getD_lt hr
      simpa [candidateScores] using this
    exact getD_mem _ _ _ hp
  · have hp : (topPositions C boxes classification cfg).getD r 0 <
        (candidateIndices C boxes classification cfg).length := by
      have := topPositions_getD_lt hr
      simpa [candidateScores] using this
    rw [out_scores_real C boxes classification other cfg hr]
    exact getD_map _ _ _ _ (0, 0) hp
  · exact out_labels_real C boxes classification other cfg hr
  · exact out_boxes_real C boxes classification other cfg hr
  · intro j hj
    exact out_other_real C boxes classification other cfg hr hj

/-- C7 counterexample: `filter_detections` performs no upfront validation.
With the invalid configuration `max_detections = 0` (and otherwise valid
shapes: one box, one class, one auxiliary array of leading dimension 1), the
source raises no error at all: it completes normally and returns a full,
well-formed result (here of width 0), contradicting the claim that every
invalid configuration raises a descriptive error before computation begins. -/
theorem C7_counterexample :
    filter_detections 1 [⟨0, 0, 1, 1⟩] [[9/10]] [[[5]]]
      { class_specific_filter := true, nms := true, score_threshold := 1/2,
        max_detections := 0, nms_threshold := 1/2 } =
      { boxes := [], scores := [], labels := [], other := [[]] } := by
  decide

/-- C7 amended: `filter_detections` contains no validation code: for every
input whatsoever and for the claim's invalid configuration `max_detections = 0`,
it completes normally and returns the fixed-width (here empty) outputs instead
of raising; only TF kernels could raise, during computation, not before it. -/
theorem C7_no_validation (C : ℕ) (boxes : List Box)
    (classification : List (List ℚ)) (other : List (List (List ℚ)))
    (cfg : FilterConfig) (h : cfg.max_detections = 0) :
    (filter_detections C boxes classification other cfg).boxes = [] ∧
    (filter_detections C boxes classification other cfg).scores = [] ∧
    (filter_detections C boxes classification other cfg).labels = [] ∧
    ∀ o ∈ (filter_detections C boxes classification other cfg).other, o = [] := by
  obtain ⟨h1, h2, h3, _, h5⟩ := out_lengths C boxes classification other cfg
  rw [h] at h1 h2 h3
  refine ⟨List.eq_nil_of_length_eq_zero h1, List.eq_nil_of_length_eq_zero h2,
    List.eq_nil_of_length_eq_zero h3, ?_⟩
  intro o ho
  have := h5 o ho
  rw [h] at this
  exact List.eq_nil_of_length_eq_zero this

/-- C9: `filter_detections` is a pure function, so two runs on identical
inputs and configuration agree definitionally; moreover score ties in the
global top-k are broken stably by candidate position, the lower position
(earlier candidate) ranked first. -/
theorem C9_deterministic (C : ℕ) (boxes : List Box)
    (classification : List (List ℚ)) (other : List (List (List ℚ)))
    (cfg : FilterConfig) :
    filter_detections C boxes classification other cfg =
      filter_detections C boxes classification other cfg ∧
    ∀ r s : ℕ, r < s → s < numReal C boxes classification cfg →
      (candidateScores C boxes classification cfg).getD
          ((topPositions C boxes classification cfg).getD r 0) 0 =
        (candidateScores C boxes classification cfg).getD
          ((topPositions C boxes classification cfg).getD s 0) 0 →
      (topPositions C boxes classification cfg).getD r 0 <
        (topPositions C boxes classification cfg).getD s 0 := by
  refine ⟨rfl, ?_⟩
  intro r s hrs hs heq
  have hr : r < numReal C boxes classification cfg := lt_trans hrs hs
  have hrlen : r < (topPositions C boxes classification cfg).length := by
    rw [topPositions_length]; exact hr
  have hslen : s < (topPositions C boxes classification cfg).length := by
    rw [topPositions_length]; exact hs
  have hsorted : List.Pairwise
      (scoreRel (candidateScores C boxes classification cfg))
      (topPositions C boxes classification cfg) :=
    topPositions_sorted C boxes classification cfg
  rw [List.pairwise_iff_getElem] at hsorted
  have hrel := hsorted r s hrlen hslen hrs
  rw [List.getD_eq_getElem _ _ hrlen, List.getD_eq_getElem _ _ hslen] at heq ⊢
  rcases hrel with h | ⟨_, hle⟩
  · rw [heq] at h
    exact absurd h (lt_irrefl _)
  · refine lt_of_le_of_ne hle ?_
    intro hh
    have := (topPositions_nodup C boxes classification cfg).getElem_inj_iff.mp hh
    omega

/-- C10: with `C ≥ 1` classes and a well-formed `N × C` classification matrix,
every non-padded output row has a label in `[0, C-1]`, and a row's label is -1
exactly when the row is sentinel padding, so the label field alone
distinguishes real detections from padding. -/
theorem C10_label_range (C : ℕ) (boxes : List Box)
    (classification : List (List ℚ)) (other : List (List (List ℚ)))
    (cfg : FilterConfig) (hC : 0 < C)
    (hW : ∀ row ∈ classification, row.length = C) {r : ℕ}
    (hr : r < cfg.max_detections) :
    (r < numReal C boxes classification cfg →
      0 ≤ (filter_detections C boxes classification other cfg).labels.getD r 0 ∧
      (filter_detections C boxes classification other cfg).labels.getD r 0 < (C : ℤ)) ∧
    ((filter_detections C boxes classification other cfg).labels.getD r 0 = -1 ↔
      numReal C boxes classification cfg ≤ r) := by
  have hreal : ∀ _hlt : r < numReal C boxes classification cfg,
      0 ≤ (filter_detections C boxes classification other cfg).labels.getD r 0 ∧
      (filter_detections C boxes classification other cfg).labels.getD r 0 < (C : ℤ) := by
    intro hlt
    rw [out_labels_real C boxes classification other cfg hlt]
    have hp : (topPositions C boxes classification cfg).getD r 0 <
        (candidateIndices C boxes classification cfg).length := by
      have := topPositions_getD_lt hlt
      simpa [candidateScores] using this
    obtain ⟨hN, hpos, _, hcsf, hbest⟩ := candidate_spec (getD_mem _ _ _ hp)
    refine ⟨hpos, ?_⟩
    by_cases hcs : cfg.class_specific_filter = true
    · exact hcsf hcs
    · have hb := hbest (Bool.eq_false_iff.mpr hcs)
      have hrow : classification.getD ((candidateIndices C boxes classification cfg).getD
          ((topPositions C boxes classification cfg).getD r 0) (0, 0)).1 [] ∈
          classification := getD_mem _ _ _ hN
      have hlen := hW _ hrow
      have hne : classification.getD ((candidateIndices C boxes classification cfg).getD
          ((topPositions C boxes classification cfg).getD r 0) (0, 0)).1 [] ≠ [] := by
        apply List.ne_nil_of_length_pos
        rw [hlen]; exact hC
      have harg := argmaxIdx_lt _ hne
      rw [hb]
      rw [hlen] at harg
      exact_mod_cast harg
  constructor
  · exact hreal
  · constructor
    · intro hm1
      by_contra hlt
      push_neg at hlt
      have := (hreal hlt).1
      rw [hm1] at this
      exact absurd this (by norm_num)
    · intro hge
      exact out_labels_pad C boxes classification other cfg hge hr

/-! ### Lemmas for the NaN-aware model -/

theorem greaterNaN_isSome {a t : Option ℚ} (h : greaterNaN a t = true) :
    ∃ x : ℚ, a = some x := by
  cases a with
  | none => cases t <;> simp [greaterNaN] at h
  | some x => exact ⟨x, rfl⟩

theorem maxScoreNaN_all_some :
    ∀ l : List (Option ℚ), ∀ m : ℚ, maxScoreNaN l = some m →
      ∀ x ∈ l, ∃ y : ℚ, x = some y
  | [], _, h => by simp [maxScoreNaN] at h
  | [a], m, h => by
    intro x hx
    rw [List.mem_singleton] at hx
    subst hx
    exact ⟨m, h⟩
  | a :: b :: l, m, h => by
    intro x hx
    rw [maxScoreNaN] at h
    rcases ha : a with _ | xa <;> rw [ha] at h
    · simp [maxNaN] at h
    · rcases hm : maxScoreNaN (b :: l) with _ | ym <;> rw [hm] at h
      · simp [maxNaN] at h
      · rcases List.mem_cons.mp hx with he | hx
        · exact ⟨xa, he.trans ha⟩
        · exact maxScoreNaN_all_some (b :: l) ym hm x hx

theorem argmaxIdxNaN_lt :
    ∀ l : List (Option ℚ), l ≠ [] → argmaxIdxNaN l < l.length
  | [], h => absurd rfl h
  | [_], _ => by simp [argmaxIdxNaN]
  | a :: b :: l, _ => by
    rw [argmaxIdxNaN]
    by_cases h : greaterNaN (maxScoreNaN (b :: l)) a = true
    · rw [if_pos h]
      have := argmaxIdxNaN_lt (b :: l) (by simp)
      simpa using Nat.succ_lt_succ this
    · rw [if_neg h]
      simp

theorem mem_filterIndicesNaN {s : List (Option ℚ)} {t : Option ℚ} {i : ℕ} :
    i ∈ filterIndicesNaN s t ↔
      i < s.length ∧ greaterNaN (s.getD i none) t = true := by
  simp [filterIndicesNaN, List.mem_filter, List.mem_range]

theorem mem_sortedIndicesNaN {s : List (Option ℚ)} {i : ℕ} :
    i ∈ sortedIndicesNaN s ↔ i < s.length := by
  unfold sortedIndicesNaN
  rw [(List.perm_insertionSort _ _).mem_iff, List.mem_range]

theorem mem_innerNaN {boxes : List Box} {cfg : FilterConfig} {t : Option ℚ}
    {scores : List (Option ℚ)} {labels : List ℤ} {p : ℕ × ℤ}
    (hp : p ∈ filterDetectionsInnerNaN boxes cfg t scores labels) :
    p.1 ∈ filterIndicesNaN scores t ∧ p.2 = labels.getD p.1 0 := by
  simp only [filterDetectionsInnerNaN] at hp
  rcases List.mem_map.mp hp with ⟨i, hi, rfl⟩
  refine ⟨?_, rfl⟩
  by_cases hnms : cfg.nms = true
  · rw [if_pos hnms] at hi
    rcases List.mem_map.mp hi with ⟨k, hk, rfl⟩
    have hklt : k < (filterIndicesNaN scores t).length := by
      have := mem_sortedIndicesNaN.mp (nmsSelect_subset _ _ hk)
      simpa using this
    exact getD_mem _ _ _ hklt
  · rw [if_neg hnms] at hi
    exact hi

theorem candidateScoresNaN_ne_none (C : ℕ) (boxes : List Box)
    (classification : List (List (Option ℚ))) (cfg : FilterConfig)
    (t : Option ℚ) :
    ∀ x ∈ candidateScoresNaN C boxes classification cfg t, x ≠ none := by
  intro x hx
  rcases List.mem_map.mp hx with ⟨p, hp, rfl⟩
  unfold candidateIndicesNaN at hp
  by_cases hcs : cfg.class_specific_filter = true
  · rw [if_pos hcs] at hp
    rcases List.mem_flatten.mp hp with ⟨l, hl, hpl⟩
    rcases List.mem_map.mp hl with ⟨c, _, rfl⟩
    obtain ⟨hfi, hlab⟩ := mem_innerNaN hpl
    rw [mem_filterIndicesNaN] at hfi
    have hN : p.1 < classification.length := by
      simpa [classScoresNaN] using hfi.1
    obtain ⟨v, hv⟩ := greaterNaN_isSome hfi.2
    rw [classScoresNaN, getD_map _ _ _ _ [] hN] at hv
    have hlabel : p.2 = (c : ℤ) := by
      rw [hlab, getD_replicate _ _ hN]
    rw [hlabel, Int.toNat_natCast, hv]
    simp
  · rw [if_neg hcs] at hp
    obtain ⟨hfi, hlab⟩ := mem_innerNaN hp
    rw [mem_filterIndicesNaN] at hfi
    have hN : p.1 < classification.length := by simpa using hfi.1
    obtain ⟨v, hv⟩ := greaterNaN_isSome hfi.2
    rw [getD_map _ _ _ _ [] hN] at hv
    have hlabel : p.2 = (argmaxIdxNaN (classification.getD p.1 []) : ℤ) := by
      rw [hlab, getD_map _ _ _ _ [] hN]
    have hne : classification.getD p.1 [] ≠ [] := by
      intro hnil
      rw [hnil] at hv
      simp [maxScoreNaN] at hv
    have harg := argmaxIdxNaN_lt _ hne
    obtain ⟨y, hy⟩ := maxScoreNaN_all_some _ v hv _ (getD_mem _ (argmaxIdxNaN
      (classification.getD p.1 [])) none harg)
    rw [hlabel, Int.toNat_natCast, hy]
    simp

/-- C8: a candidate whose score is NaN is never selected into the output:
NaN (modelled by `none`) fails the strict threshold comparison on every path,
so every entry of the scores output — real detections and sentinel padding
alike — is a non-NaN value, for every input containing NaN scores and every
(possibly NaN) score threshold. -/
theorem C8_nan_never_selected (C : ℕ) (boxes : List Box)
    (classification : List (List (Option ℚ))) (cfg : FilterConfig)
    (t : Option ℚ) :
    ∀ x ∈ outScoresNaN C boxes classification cfg t, x ≠ none := by
  intro x hx
  rcases List.mem_append.mp hx with hx | hx
  · rcases List.mem_map.mp hx with ⟨p, hp, rfl⟩
    have hplt : p < (candidateScoresNaN C boxes classification cfg t).length :=
      mem_sortedIndicesNaN.mp ((List.take_sublist _ _).subset hp)
    exact candidateScoresNaN_ne_none C boxes classification cfg t _
      (getD_mem _ _ _ hplt)
  · rw [List.eq_of_mem_replicate hx]
    simp

/-! ### Witnesses: the claim theorems applied at concrete inputs -/

/-- C1 witness: one class, scores 4/3/1, threshold 2, `max_detections = 1`:
the output is width 1 and the dropped candidate scores at most the kept one. -/
theorem C1_fixed_width_witness :
    (filter_detections 1 wBoxes wCls [] wCfg1).scores.length = 1 ∧
    (candidateScores 1 wBoxes wCls wCfg1).getD 1 0 ≤
      (candidateScores 1 wBoxes wCls wCfg1).getD 0 0 :=
  ⟨(C1_fixed_width 1 wBoxes wCls [] wCfg1).2.1,
   (C1_fixed_width 1 wBoxes wCls [] wCfg1).2.2.2.2.2 0 (by decide) 1 (by decide)
     (by decide)⟩

/-- C2 witness: with zero boxes everything is sentinel padding. -/
theorem C2_padding_witness :
    (filter_detections 1 [] [] [[]] { max_detections := 2 }).scores.getD 1 0 = -1 :=
  (C2_padding 1 [] [] [[]] { max_detections := 2 } (by decide) (by decide)).2.1

/-- C3 witness: two same-label surviving boxes overlap at most the
threshold. -/
theorem C3_suppression_witness :
    iou ((filter_detections 1 wBoxes wCls [] wCfg).boxes.getD 0 default)
      ((filter_detections 1 wBoxes wCls [] wCfg).boxes.getD 1 default) ≤ 0 :=
  C3_suppression 1 wBoxes wCls [] wCfg (by decide) (by decide) (by decide)
    (by decide) (by decide)

/-- C4 witness: the second output score is at most the first. -/
theorem C4_score_order_witness :
    (filter_detections 1 wBoxes wCls [] wCfg).scores.getD 1 0 ≤
      (filter_detections 1 wBoxes wCls [] wCfg).scores.getD 0 0 :=
  C4_score_order 1 wBoxes wCls [] wCfg (by decide) (by decide)

/-- C5 witness: the top output score strictly exceeds the threshold 2. -/
theorem C5_threshold_witness :
    (2 : ℚ) < (filter_detections 1 wBoxes wCls [] wCfg).scores.getD 0 0 :=
  C5_threshold 1 wBoxes wCls [] wCfg (by decide)

/-- C6 witness: the first output row gathers its selected candidate. -/
theorem C6_gather_witness :
    ∃ p, p = (topPositions 1 wBoxes wCls wCfg).getD 0 0 ∧
      p < (candidateIndices 1 wBoxes wCls wCfg).length ∧
      (candidateIndices 1 wBoxes wCls wCfg).getD p (0, 0) ∈
        candidateIndices 1 wBoxes wCls wCfg ∧
      (filter_detections 1 wBoxes wCls [] wCfg).scores.getD 0 0 =
        (wCls.getD ((candidateIndices 1 wBoxes wCls wCfg).getD p (0, 0)).1 []).getD
          ((candidateIndices 1 wBoxes wCls wCfg).getD p (0, 0)).2.toNat 0 ∧
      (filter_detections 1 wBoxes wCls [] wCfg).labels.getD 0 0 =
        ((candidateIndices 1 wBoxes wCls wCfg).getD p (0, 0)).2 ∧
      (filter_detections 1 wBoxes wCls [] wCfg).boxes.getD 0 default =
        wBoxes.getD ((candidateIndices 1 wBoxes wCls wCfg).getD p (0, 0)).1 default ∧
      ∀ j, j < ([] : List (List (List ℚ))).length →
        ((filter_detections 1 wBoxes wCls [] wCfg).other.getD j []).getD 0 [] =
          (([] : List (List (List ℚ))).getD j []).getD
            ((candidateIndices 1 wBoxes wCls wCfg).getD p (0, 0)).1 [] :=
  C6_gather 1 wBoxes wCls [] wCfg (by decide)

/-- C7 witness: with `max_detections = 0` the call completes and returns the
empty scores output instead of raising. -/
theorem C7_no_validation_witness :
    (filter_detections 1 wBoxes wCls [] { max_detections := 0 }).scores = [] :=
  (C7_no_validation 1 wBoxes wCls [] { max_detections := 0 } rfl).2.1

/-- C8 witness: with scores `[NaN, 3]` and threshold 1, the non-NaN score 3
appears in the output and is (like every output entry) not NaN. -/
theorem C8_nan_never_selected_witness :
    (some (3 : ℚ) : Option ℚ) ≠ none :=
  C8_nan_never_selected 1 wBoxesTie wClsNaN wCfgNaN (some 1) (some 3) (by decide)

/-- C9 witness: a score tie is broken by candidate position, lower first. -/
theorem C9_deterministic_witness :
    (topPositions 1 wBoxesTie wClsTie wCfgTie).getD 0 0 <
      (topPositions 1 wBoxesTie wClsTie wCfgTie).getD 1 0 :=
  (C9_deterministic 1 wBoxesTie wClsTie [] wCfgTie).2 0 1 (by decide) (by decide)
    (by decide)

/-- C10 witness: the first (real) output row's label lies in `[0, C-1]`. -/
theorem C10_label_range_witness :
    0 ≤ (filter_detections 1 wBoxes wCls [] wCfg).labels.getD 0 0 ∧
    (filter_detections 1 wBoxes wCls [] wCfg).labels.getD 0 0 < (1 : ℤ) :=
  (C10_label_range 1 wBoxes wCls [] wCfg (by decide) (by decide) (by decide)).1
    (by decide)

end TfRetinanet
